import Mathlib

/-!
Verification of the image measurement pipeline (image_processor.py,
area_calculator.py, scale_detector.py) against its specification.

Shallow embedding conventions:
* contour points are pairs of integers (pixel coordinates), as produced by the
  boundary detector;
* Python floats are modelled as rationals where the source only performs
  field arithmetic, and as real numbers where square roots occur;
* functions that raise exceptions are modelled with Except, functions that
  return None with Option.
-/

namespace MapTest

/-- A contour point: integer pixel coordinates (x, y). -/
abbrev Point := ℤ × ℤ

/-- Default point used for the (never reached) out-of-range case of list indexing. -/
def origin : Point := ((0 : ℤ), (0 : ℤ))

/-- Generic cyclic accumulation, the shape of the Python loop
`for i in range(len(contour)): acc += f(contour[i], contour[(i + 1) % len(contour)])`
used by both calculate_line_length and the shoelace area sum. -/
def cyclicFold {M : Type*} [AddCommMonoid M] (f : Point → Point → M) (l : List Point) : M :=
  ∑ i ∈ Finset.range l.length, f (l.getD i origin) (l.getD ((i + 1) % l.length) origin)

/-- Accumulation of f over consecutive (non-cyclic) pairs of a point list. -/
def pathFold {M : Type*} [AddCommMonoid M] (f : Point → Point → M) : List Point → M
  | [] => 0
  | [_] => 0
  | p :: q :: t => f p q + pathFold f (q :: t)

/-- Euclidean distance between two integer points,
`np.sqrt((pt2[0]-pt1[0])**2 + (pt2[1]-pt1[1])**2)` in the source. -/
noncomputable def ptDist (p q : Point) : ℝ :=
  Real.sqrt ((((q.1 - p.1) ^ 2 + (q.2 - p.2) ^ 2 : ℤ) : ℝ))

/-- The cross product term `x_i * y_(i+1) - x_(i+1) * y_i` of the shoelace formula. -/
def cross (p q : Point) : ℤ := p.1 * q.2 - q.1 * p.2

/-- Signed double area: the cyclic shoelace sum over a contour. -/
def shoelace (l : List Point) : ℤ := cyclicFold cross l

/-- Modelled from the spec: `cv2.contourArea` (external library call made by
`calculate_area`, image_processor.py line 141); per the spec (section 4.4, glossary)
it is the absolute value of the signed polygon area via the shoelace formula,
`0.5 * |sum (x_i * y_(i+1) - x_(i+1) * y_i)|` over the cyclic point sequence. -/
def contourArea (l : List Point) : ℚ := |((shoelace l : ℤ) : ℚ)| / 2

/-- image_processor.py, calculate_line_length (lines 116-130): zero for fewer than
two points, otherwise the cyclic sum of Euclidean distances between consecutive
points, the index `(i + 1) % len(contour)` wrapping the last point to the first. -/
noncomputable def calculate_line_length (contour : List Point) : ℝ :=
  if contour.length < 2 then 0 else cyclicFold ptDist contour

/-- image_processor.py, calculate_area (lines 132-146): zero for fewer than three
points, otherwise the absolute value of cv2.contourArea of the contour. -/
def calculate_area (contour : List Point) : ℚ :=
  if contour.length < 3 then 0 else |contourArea contour|

/-- image_processor.py, auto_close_contour (lines 165-175): an empty contour is
returned unchanged, otherwise a copy of the first point is appended at the end. -/
def auto_close_contour (contour : List Point) : List Point :=
  if contour.isEmpty then contour else contour ++ [contour.headD origin]

/-- area_calculator.py, the unit_to_meters lookup inside calculate_scale_from_reference
(lines 145-152): meters=1, feet=0.3048, yards=0.9144, inches=0.0254, cm=0.01, mm=0.001. -/
def unit_to_meters (u : String) : Option ℚ :=
  if u = "meters" then some 1
  else if u = "feet" then some 0.3048
  else if u = "yards" then some 0.9144
  else if u = "inches" then some 0.0254
  else if u = "cm" then some 0.01
  else if u = "mm" then some 0.001
  else none

/-- Python str.lower(), modelled as lowercasing each character of the string (the
unit names involved are plain ASCII). -/
def py_lower (s : String) : String := String.mk (s.data.map Char.toLower)

/-- area_calculator.py, calculate_scale_from_reference (lines 127-164): looks up the
lowercased unit (ValueError "Unknown unit: ..." when absent), converts the real length
to meters, raises ValueError exactly when the converted length equals zero, else
returns the pixel length divided by the converted length. -/
def calculate_scale_from_reference (reference_pixel_length reference_real_length : ℚ)
    (unit : String) : Except String ℚ :=
  match unit_to_meters (py_lower unit) with
  | none => Except.error ("Unknown unit: " ++ unit)
  | some factor =>
      if reference_real_length * factor = 0 then
        Except.error "Reference length cannot be zero"
      else Except.ok (reference_pixel_length / (reference_real_length * factor))

/-- Python 3 round() modelled on an exact rational: scale by 10 ^ ndigits, round half
to even, scale back. (The source applies it to binary floats; the claims only use it
at exactly representable decimal arguments.) -/
def python_round (x : ℚ) (ndigits : ℕ) : ℚ :=
  ((if x * 10 ^ ndigits - ⌊x * 10 ^ ndigits⌋ = 1 / 2
    then (if 2 ∣ ⌊x * 10 ^ ndigits⌋ then ⌊x * 10 ^ ndigits⌋ else ⌊x * 10 ^ ndigits⌋ + 1)
    else round (x * 10 ^ ndigits) : ℤ) : ℚ) / 10 ^ ndigits

/-- The record returned by convert_to_all_units. -/
structure AreaUnits where
  sq_meters : ℚ
  sq_feet : ℚ
  acres : ℚ
deriving DecidableEq

/-- area_calculator.py, convert_to_all_units (lines 38-52), with the CONVERSIONS
constants of lines 14-19: sq_feet = 10.764 per sq meter, acres = 0.000247105 per
sq meter; sq_meters and sq_feet rounded to 2 digits, acres to 4. -/
def convert_to_all_units (area_sq_meters : ℚ) : AreaUnits :=
  { sq_meters := python_round area_sq_meters 2
    sq_feet := python_round (area_sq_meters * 10.764) 2
    acres := python_round (area_sq_meters * 0.000247105) 4 }

/-- scale_detector.py, the unit chain of manual_scale_input (lines 109-120), matched
case sensitively; an unrecognised unit falls through to the final else branch, which
takes the real length to already be in meters. -/
def manual_real_length_m (real_length : ℚ) (unit : String) : ℚ :=
  if unit = "cm" then real_length / 100
  else if unit = "mm" then real_length / 1000
  else if unit = "m" ∨ unit = "meter" ∨ unit = "meters" then real_length
  else if unit = "ft" ∨ unit = "feet" then real_length * 0.3048
  else if unit = "in" ∨ unit = "inch" then real_length * 0.0254
  else real_length

/-- scale_detector.py, manual_scale_input (lines 104-125): converts the real length by
the chain above, then returns pixel_length divided by it when it is positive and None
otherwise; the function never raises. -/
def manual_scale_input (pixel_length real_length : ℚ) (unit : String) : Option ℚ :=
  if manual_real_length_m real_length unit > 0
  then some (pixel_length / manual_real_length_m real_length unit)
  else none

/-- image_processor.py, ImageMeasurementProcessor (lines 12-16): the instance state.
The constructor stores a debug_mode flag on the instance (line 16,
`self.debug_mode = False`). -/
structure ImageMeasurementProcessor where
  debug_mode : Bool
deriving DecidableEq

/-- The state produced by `ImageMeasurementProcessor()` (lines 15-16). -/
def ImageMeasurementProcessor.init : ImageMeasurementProcessor := { debug_mode := false }

/-- Modelled from example_usage.py line 39 (`processor.debug_mode = True`): a caller
rebinding the stored flag, possible only because the flag is instance state. -/
def ImageMeasurementProcessor.set_debug (s : ImageMeasurementProcessor) (b : Bool) :
    ImageMeasurementProcessor :=
  { s with debug_mode := b }

/-- image_processor.py line 280 (and line 217): `max(contours, key=cv2.contourArea)`
on a non-empty list c :: cs. Python max keeps the current best on ties and replaces it
only when a later candidate has a strictly larger key. -/
def python_max_by_area (c : List Point) (cs : List (List Point)) : List Point :=
  cs.foldl (fun best cand => if contourArea best < contourArea cand then cand else best) c

/-- The JSON-shaped record returned by process_image_array. -/
structure MeasurementResult where
  line_length : String
  area : String
  unit : String
  notes : String
deriving DecidableEq

/-- The numeric outcome of the measured (non-empty) branch of process_image_array,
kept before string formatting. -/
structure MeasuredOutcome where
  main_contour : List Point
  was_closed : Bool
  line_length : ℝ
  area : ℚ
  unit : String
  notes : List String

/-- Output of the pipeline: either the early empty-detection record or a measured
outcome. -/
inductive PipelineOutput where
  | empty (result : MeasurementResult)
  | measured (outcome : MeasuredOutcome)

/-- Squared Euclidean distance between two integer points. -/
def sqNorm (p q : Point) : ℤ := (q.1 - p.1) ^ 2 + (q.2 - p.2) ^ 2

/-- image_processor.py, is_contour_closed (lines 148-163): false for fewer than three
points, else compares the first-to-last Euclidean distance with the threshold. For a
positive threshold, sqrt s < t holds iff s < t ^ 2, which keeps the test decidable on
integer points. -/
def is_contour_closed (contour : List Point) (threshold : ℚ) : Bool :=
  if contour.length < 3 then false
  else decide (((sqNorm (contour.headD origin) (contour.getLastD origin) : ℤ) : ℚ)
    < threshold ^ 2)

/-- image_processor.py, detect_scale_reference (lines 177-189): a placeholder that
always returns None. -/
def detect_scale_reference (contours : List (List Point)) : Option ℚ := none

/-- The pixels-only note appended when no scale is found (line 312). -/
def no_scale_note : String := "No reference scale detected. Measurements in pixels only."

/-- image_processor.py, process_image_array (lines 260-321), modelled from the point
where the detected contour list is available. The empty list takes the early return of
lines 271-277 verbatim, string fields exactly as the source writes them. A non-empty
list selects the largest contour, auto-closes it if needed, measures it, and branches
on `if scale_factor:` (Python truthiness: None and 0.0 are falsy); since
detect_scale_reference always returns None the pixels branch runs. The float-to-string
formatting of the measured branch (f-strings at lines 306-311) is not modelled: the
measured branch carries its numeric values and notes instead. -/
noncomputable def process_image_array : List (List Point) → PipelineOutput
  | [] => PipelineOutput.empty
      { line_length := "0", area := "0", unit := "pixels",
        notes := "No drawn lines detected in the image." }
  | c :: cs =>
      let main0 := python_max_by_area c cs
      let was_closed := is_contour_closed main0 5
      let main := if was_closed then main0 else auto_close_contour main0
      let line_length := calculate_line_length main
      let area := calculate_area main
      let scale_factor := detect_scale_reference (c :: cs)
      let notes1 : List String :=
        if was_closed then [] else ["Boundary was open and was auto-closed."]
      let notes2 : List String :=
        if (c :: cs).length > 1 then
          ["Detected " ++ toString (c :: cs).length
            ++ " separate line segments. Using the largest as main boundary."]
        else []
      match scale_factor with
      | some sf =>
          if sf = 0 then
            PipelineOutput.measured
              { main_contour := main, was_closed := was_closed,
                line_length := line_length, area := area, unit := "pixels",
                notes := notes1 ++ notes2 ++ [no_scale_note] }
          else
            PipelineOutput.measured
              { main_contour := main, was_closed := was_closed,
                line_length := line_length / (sf : ℝ), area := area / sf ^ 2,
                unit := "meters", notes := notes1 ++ notes2 }
      | none =>
          PipelineOutput.measured
            { main_contour := main, was_closed := was_closed,
              line_length := line_length, area := area, unit := "pixels",
              notes := notes1 ++ notes2 ++ [no_scale_note] }

/-- The bound method view of process_image_array: Python passes the instance as self;
the method body neither reads nor writes instance state, so the call returns its
result together with the unchanged state. -/
noncomputable def ImageMeasurementProcessor.process_image_array_m
    (self : ImageMeasurementProcessor) (contours : List (List Point)) :
    PipelineOutput × ImageMeasurementProcessor :=
  (process_image_array contours, self)

/-! ## Lemmas about the cyclic fold -/

section CyclicLemmas

variable {M : Type*} [AddCommMonoid M] (f : Point → Point → M)

lemma getD_zero_eq_headD (l : List Point) : l.getD 0 origin = l.headD origin := by
  cases l <;> rfl

lemma getD_pred_eq_getLastD (l : List Point) (m : ℕ) (hm : l.length = m + 1) :
    l.getD m origin = l.getLastD origin := by
  induction l generalizing m with
  | nil => simp at hm
  | cons p t ih =>
    cases t with
    | nil =>
      have : m = 0 := by simpa using hm
      subst this; rfl
    | cons q t' =>
      simp only [List.length_cons] at hm
      have hm' : (q :: t').length = (m - 1) + 1 := by
        simp only [List.length_cons]; omega
      have hmpos : m = (m - 1) + 1 := by omega
      rw [hmpos, List.getD_cons_succ, ih (m - 1) hm']
      rfl

lemma adjSum_eq_pathFold (l : List Point) :
    ∑ i ∈ Finset.range (l.length - 1), f (l.getD i origin) (l.getD (i + 1) origin)
      = pathFold f l := by
  induction l with
  | nil => simp [pathFold]
  | cons p t ih =>
    cases t with
    | nil => simp [pathFold]
    | cons q t' =>
      have hlen : (p :: q :: t').length - 1 = ((q :: t').length - 1) + 1 := by
        simp
      rw [hlen, Finset.sum_range_succ']
      simp only [List.getD_cons_succ] at ih ⊢
      rw [ih]
      simp only [List.getD_cons_zero]
      show pathFold f (q :: t') + f p q = f p q + pathFold f (q :: t')
      exact add_comm _ _

lemma cyclicFold_eq_pathFold (l : List Point) (h : l ≠ []) :
    cyclicFold f l = pathFold f l + f (l.getLastD origin) (l.headD origin) := by
  obtain ⟨m, hm⟩ : ∃ m, l.length = m + 1 := by
    cases l with
    | nil => exact absurd rfl h
    | cons p t => exact ⟨t.length, rfl⟩
  unfold cyclicFold
  rw [hm, Finset.sum_range_succ]
  have h1 : f (l.getD m origin) (l.getD ((m + 1) % (m + 1)) origin)
      = f (l.getLastD origin) (l.headD origin) := by
    rw [Nat.mod_self, getD_zero_eq_headD, getD_pred_eq_getLastD l m hm]
  have h2 : ∑ i ∈ Finset.range m, f (l.getD i origin) (l.getD ((i + 1) % (m + 1)) origin)
      = ∑ i ∈ Finset.range m, f (l.getD i origin) (l.getD (i + 1) origin) := by
    refine Finset.sum_congr rfl (fun i hi => ?_)
    have hi' := Finset.mem_range.mp hi
    rw [Nat.mod_eq_of_lt (by omega)]
  rw [h1, h2]
  have hm' : m = l.length - 1 := by omega
  rw [hm', adjSum_eq_pathFold]

lemma pathFold_append_singleton (l : List Point) (a : Point) (h : l ≠ []) :
    pathFold f (l ++ [a]) = pathFold f l + f (l.getLastD origin) a := by
  induction l with
  | nil => exact absurd rfl h
  | cons p t ih =>
    cases t with
    | nil => simp [pathFold]
    | cons q t' =>
      have : (p :: q :: t') ++ [a] = p :: ((q :: t') ++ [a]) := rfl
      rw [this]
      have hq : (q :: t') ++ [a] = q :: (t' ++ [a]) := rfl
      rw [hq] at *
      show f p q + pathFold f (q :: (t' ++ [a])) = _
      rw [show (q :: (t' ++ [a])) = (q :: t') ++ [a] from rfl, ih (by simp)]
      simp [pathFold, add_assoc]

end CyclicLemmas

section GroupLemmas

variable {M : Type*} [AddCommGroup M] (f : Point → Point → M)

lemma getLastD_reverse (l : List Point) (d : Point) :
    l.reverse.getLastD d = l.headD d := by
  cases l with
  | nil => rfl
  | cons p t =>
    have : (p :: t).reverse = t.reverse ++ [p] := by simp
    rw [this, List.getLastD_concat]
    rfl

lemma headD_reverse (l : List Point) (d : Point) :
    l.reverse.headD d = l.getLastD d := by
  have h := getLastD_reverse l.reverse d
  rw [List.reverse_reverse] at h
  exact h.symm

lemma pathFold_reverse (hf : ∀ p q, f p q = - f q p) (l : List Point) :
    pathFold f l.reverse = - pathFold f l := by
  induction l with
  | nil => simp [pathFold]
  | cons p t ih =>
    cases t with
    | nil => simp [pathFold]
    | cons q t' =>
      have hrev : (p :: q :: t').reverse = (q :: t').reverse ++ [p] := by simp
      rw [hrev, pathFold_append_singleton f _ _ (by simp), ih,
        getLastD_reverse, hf]
      show -pathFold f (q :: t') + -f p ((q :: t').headD origin)
        = -(f p q + pathFold f (q :: t'))
      simp only [List.headD_cons]
      abel

lemma shoelace_reverse (l : List Point) : shoelace l.reverse = - shoelace l := by
  cases l with
  | nil => simp [shoelace, cyclicFold]
  | cons p t =>
    have hne : (p :: t) ≠ [] := by simp
    have hne' : (p :: t).reverse ≠ [] := by simp
    have hanti : ∀ a b : Point, cross a b = - cross b a := by
      intro a b; unfold cross; ring
    unfold shoelace
    rw [cyclicFold_eq_pathFold cross _ hne', cyclicFold_eq_pathFold cross _ hne,
      pathFold_reverse cross hanti, getLastD_reverse, headD_reverse,
      hanti ((p :: t).headD origin) ((p :: t).getLastD origin)]
    abel

lemma shoelace_short (l : List Point) (h : l.length < 3) : shoelace l = 0 := by
  match l, h with
  | [], _ => rfl
  | [p], _ =>
    have : shoelace [p] = pathFold cross [p] + cross p p := by
      rw [shoelace, cyclicFold_eq_pathFold cross [p] (by simp)]; rfl
    rw [this]
    unfold pathFold cross
    ring
  | [p, q], _ =>
    have : shoelace [p, q] = pathFold cross [p, q] + cross q p := by
      rw [shoelace, cyclicFold_eq_pathFold cross [p, q] (by simp)]; rfl
    rw [this]
    show pathFold cross (p :: q :: []) + cross q p = 0
    rw [pathFold]
    unfold pathFold cross
    ring

end GroupLemmas

lemma ptDist_self (p : Point) : ptDist p p = 0 := by
  unfold ptDist
  simp

lemma headD_append_of_ne_nil (l l' : List Point) (d : Point) (h : l ≠ []) :
    (l ++ l').headD d = l.headD d := by
  cases l with
  | nil => exact absurd rfl h
  | cons p t => rfl

lemma calculate_line_length_auto_close (l : List Point) :
    calculate_line_length (auto_close_contour l) = calculate_line_length l := by
  cases l with
  | nil => rfl
  | cons p t =>
    have hclose : auto_close_contour (p :: t) = (p :: t) ++ [p] := by
      simp [auto_close_contour]
    rw [hclose]
    cases t with
    | nil =>
      have h1 : calculate_line_length [p] = 0 := by
        unfold calculate_line_length; norm_num
      have h2 : calculate_line_length ([p] ++ [p]) = cyclicFold ptDist [p, p] := by
        unfold calculate_line_length; norm_num
      rw [h1, h2, cyclicFold_eq_pathFold ptDist [p, p] (by simp)]
      simp [pathFold, ptDist_self, List.getLastD]
    | cons q t' =>
      have hne : (p :: q :: t') ≠ [] := by simp
      have hlen2 : ¬ ((p :: q :: t').length < 2) := by simp
      have hlenA : ¬ (((p :: q :: t') ++ [p]).length < 2) := by simp
      unfold calculate_line_length
      rw [if_neg hlenA, if_neg hlen2]
      rw [cyclicFold_eq_pathFold ptDist ((p :: q :: t') ++ [p]) (by simp),
        cyclicFold_eq_pathFold ptDist (p :: q :: t') hne,
        pathFold_append_singleton ptDist (p :: q :: t') p hne,
        List.getLastD_concat, headD_append_of_ne_nil (p :: q :: t') [p] origin hne]
      have hhead : (p :: q :: t').headD origin = p := rfl
      rw [hhead, ptDist_self, add_zero]

/-! ## Helper lemmas for the scale calibrator -/

lemma unit_to_meters_pos (u : String) (f : ℚ) (h : unit_to_meters u = some f) : 0 < f := by
  unfold unit_to_meters at h
  split_ifs at h <;> simp only [Option.some.injEq] at h <;> subst h <;> norm_num

lemma scale_from_reference_eval (p r : ℚ) (u : String) (f : ℚ)
    (hf : unit_to_meters (py_lower u) = some f) :
    calculate_scale_from_reference p r u
      = if r * f = 0 then Except.error "Reference length cannot be zero"
        else Except.ok (p / (r * f)) := by
  unfold calculate_scale_from_reference
  rw [hf]

lemma scale_from_reference_unknown (p r : ℚ) (u : String)
    (h : unit_to_meters (py_lower u) = none) :
    calculate_scale_from_reference p r u = Except.error ("Unknown unit: " ++ u) := by
  unfold calculate_scale_from_reference
  rw [h]

/-! ## Helper lemmas for python_round -/

lemma python_round_near (y : ℚ) (n : ℕ) :
    |python_round y n - y| ≤ 1 / (2 * 10 ^ n) := by
  unfold python_round
  set m : ℚ := (10 : ℚ) ^ n with hm
  have hmpos : 0 < m := by positivity
  set z := y * m with hz
  set r : ℤ := if z - ⌊z⌋ = 1 / 2 then (if 2 ∣ ⌊z⌋ then ⌊z⌋ else ⌊z⌋ + 1) else round z
    with hr
  have hnear : |(r : ℚ) - z| ≤ 1 / 2 := by
    rw [hr]
    split_ifs with h1 h2
    · rw [abs_sub_comm]
      rw [show z - ((⌊z⌋ : ℤ) : ℚ) = z - ⌊z⌋ from rfl, h1]
      rw [abs_of_nonneg (by norm_num : (0 : ℚ) ≤ 1 / 2)]
    · have hcast : ((⌊z⌋ + 1 : ℤ) : ℚ) - z = 1 - (z - (⌊z⌋ : ℚ)) := by
        push_cast; ring
      rw [hcast, h1]
      rw [show (1 : ℚ) - 1 / 2 = 1 / 2 by norm_num]
      rw [abs_of_nonneg (by norm_num : (0 : ℚ) ≤ 1 / 2)]
    · rw [abs_sub_comm]
      exact abs_sub_round z
  have hy : y = z / m := by
    rw [hz, mul_div_cancel_right₀ y (ne_of_gt hmpos)]
  calc |(r : ℚ) / m - y| = |((r : ℚ) - z) / m| := by rw [hy, div_sub_div_same]
    _ = |(r : ℚ) - z| / m := by rw [abs_div, abs_of_pos hmpos]
    _ ≤ (1 / 2) / m := by gcongr
    _ = 1 / (2 * m) := by ring

lemma python_round_scaled_int (y : ℚ) (n : ℕ) :
    (python_round y n * 10 ^ n).den = 1 := by
  unfold python_round
  have hm : ((10 : ℚ) ^ n) ≠ 0 := by positivity
  rw [div_mul_cancel₀ _ hm]
  exact Rat.den_intCast _

/-! ## Helper lemma for the main-boundary selection -/

lemma python_max_spec (cs : List (List Point)) (c : List Point) :
    contourArea c ≤ contourArea (python_max_by_area c cs)
    ∧ (∀ p ∈ cs, contourArea p ≤ contourArea (python_max_by_area c cs))
    ∧ (python_max_by_area c cs = c
       ∨ ∃ pre post, cs = pre ++ python_max_by_area c cs :: post
           ∧ contourArea c < contourArea (python_max_by_area c cs)
           ∧ ∀ p ∈ pre, contourArea p < contourArea (python_max_by_area c cs)) := by
  induction cs generalizing c with
  | nil => exact ⟨le_refl _, by simp, Or.inl rfl⟩
  | cons x t ih =>
    have hstep : python_max_by_area c (x :: t)
        = python_max_by_area (if contourArea c < contourArea x then x else c) t := rfl
    by_cases hcx : contourArea c < contourArea x
    · rw [hstep, if_pos hcx]
      obtain ⟨h1, h2, h3⟩ := ih x
      refine ⟨le_of_lt (lt_of_lt_of_le hcx h1), ?_, ?_⟩
      · intro p hp
        rcases List.mem_cons.mp hp with rfl | hp'
        · exact h1
        · exact h2 p hp'
      · rcases h3 with heq | ⟨pre, post, hsplit, hlt, hpre⟩
        · refine Or.inr ⟨[], t, by simp [heq], ?_, by simp⟩
          rw [heq]; exact hcx
        · refine Or.inr ⟨x :: pre, post,
            by rw [List.cons_append]; exact congrArg (List.cons x) hsplit,
            lt_trans hcx hlt, ?_⟩
          intro p hp
          rcases List.mem_cons.mp hp with rfl | hp'
          · exact hlt
          · exact hpre p hp'
    · rw [hstep, if_neg hcx]
      obtain ⟨h1, h2, h3⟩ := ih c
      refine ⟨h1, ?_, ?_⟩
      · intro p hp
        rcases List.mem_cons.mp hp with rfl | hp'
        · exact le_trans (le_of_not_lt hcx) h1
        · exact h2 p hp'
      · rcases h3 with heq | ⟨pre, post, hsplit, hlt, hpre⟩
        · exact Or.inl heq
        · refine Or.inr ⟨x :: pre, post,
            by rw [List.cons_append]; exact congrArg (List.cons x) hsplit, hlt, ?_⟩
          intro p hp
          rcases List.mem_cons.mp hp with rfl | hp'
          · exact lt_of_le_of_lt (le_of_not_lt hcx) hlt
          · exact hpre p hp'

/-! ## The claims -/

/-- C1, counterexample: on an empty detection the pipeline returns the string "0"
for both length and area, not the two-decimal "0.00", and the note
"No drawn lines detected in the image.", not "No drawn lines detected." -/
theorem C1_counterexample :
    process_image_array []
      = PipelineOutput.empty
          { line_length := "0", area := "0", unit := "pixels",
            notes := "No drawn lines detected in the image." }
    ∧ ("0" : String) ≠ "0.00"
    ∧ ("No drawn lines detected in the image." : String) ≠ "No drawn lines detected." :=
  ⟨rfl, by decide, by decide⟩

/-- C1, amended: whenever the detector finds no candidate polygons the pipeline
returns the zero record with unformatted string fields "0", unit "pixels", and the
note "No drawn lines detected in the image." -/
theorem C1_empty_detection (contours : List (List Point)) (h : contours.isEmpty = true) :
    process_image_array contours
      = PipelineOutput.empty
          { line_length := "0", area := "0", unit := "pixels",
            notes := "No drawn lines detected in the image." } := by
  cases contours with
  | nil => rfl
  | cons c cs => simp at h

/-- C1, witness for the amended theorem at the empty contour list. -/
theorem C1_empty_detection_witness :
    process_image_array ([] : List (List Point))
      = PipelineOutput.empty
          { line_length := "0", area := "0", unit := "pixels",
            notes := "No drawn lines detected in the image." } :=
  C1_empty_detection [] rfl

/-- C2, counterexample: with unit "meters", a negative real length is accepted (no
InvalidReference) and the returned scale factor is negative, and a zero pixel length
is accepted with a zero scale factor, refuting both directions of the claim. -/
theorem C2_counterexample :
    calculate_scale_from_reference 100 (-10) "meters" = Except.ok (-10)
    ∧ ((-10 : ℚ) * 1 ≤ 0)
    ∧ calculate_scale_from_reference 0 10 "meters" = Except.ok 0
    ∧ ¬ ((0 : ℚ) < 0) := by
  have hf : unit_to_meters (py_lower "meters") = some 1 := rfl
  refine ⟨?_, by norm_num, ?_, by norm_num⟩
  · rw [scale_from_reference_eval 100 (-10) "meters" 1 hf, if_neg (by norm_num)]
    norm_num
  · rw [scale_from_reference_eval 0 10 "meters" 1 hf, if_neg (by norm_num)]
    norm_num

/-- C2, amended: for a recognised unit, calculate_scale_from_reference fails if and
only if the real length converted to meters equals zero — negative converted lengths
and non-positive pixel lengths are accepted — and otherwise returns pixel length
divided by the converted length, which need not be positive. -/
theorem C2_invalid_reference (p r : ℚ) (u : String) (f : ℚ)
    (hf : unit_to_meters (py_lower u) = some f) :
    ((∃ e, calculate_scale_from_reference p r u = Except.error e) ↔ r * f = 0)
    ∧ (r * f ≠ 0 → calculate_scale_from_reference p r u = Except.ok (p / (r * f))) := by
  have hval := scale_from_reference_eval p r u f hf
  constructor
  · constructor
    · rintro ⟨e, he⟩
      by_contra hne
      rw [hval, if_neg hne] at he
      exact Except.noConfusion he
    · intro h0
      exact ⟨"Reference length cannot be zero", by rw [hval, if_pos h0]⟩
  · intro hne
    rw [hval, if_neg hne]

/-- C2, witness: a positive reference in cm succeeds with the expected factor. -/
theorem C2_invalid_reference_witness :
    calculate_scale_from_reference 50 2 "cm" = Except.ok 2500 := by
  have h := (C2_invalid_reference 50 2 "cm" 0.01 rfl).2 (by norm_num)
  rw [h]
  norm_num

/-- C3: calculate_line_length equals the sum of Euclidean distances over consecutive
pairs with the last point always wrapping back to the first, regardless of closure,
is zero for fewer than two points, and is a total function (never raises). -/
theorem C3_line_length_cyclic (l : List Point) :
    calculate_line_length l =
      if l.length < 2 then 0
      else pathFold ptDist l + ptDist (l.getLastD origin) (l.headD origin) := by
  by_cases h : l.length < 2
  · simp [calculate_line_length, h]
  · rw [if_neg h]
    unfold calculate_line_length
    rw [if_neg h, cyclicFold_eq_pathFold ptDist l (fun he => h (by simp [he]))]

/-- C4: calculate_area is half the absolute shoelace sum over the cyclic point
sequence, is invariant under reversing the point order, and is zero for fewer than
three points. -/
theorem C4_area_shoelace (l : List Point) :
    calculate_area l = |((shoelace l : ℤ) : ℚ)| / 2
    ∧ calculate_area l.reverse = calculate_area l
    ∧ (l.length < 3 → calculate_area l = 0) := by
  have hmain : ∀ m : List Point, calculate_area m = |((shoelace m : ℤ) : ℚ)| / 2 := by
    intro m
    by_cases hm : m.length < 3
    · unfold calculate_area
      rw [if_pos hm, shoelace_short m hm]
      norm_num
    · unfold calculate_area contourArea
      rw [if_neg hm, abs_div, abs_abs, abs_two]
  refine ⟨hmain l, ?_, fun h => by unfold calculate_area; rw [if_pos h]⟩
  rw [hmain l.reverse, hmain l, shoelace_reverse]
  push_cast
  rw [abs_neg]

/-- C4, witness: a two-point contour has zero area. -/
theorem C4_area_shoelace_witness :
    calculate_area [((0 : ℤ), (0 : ℤ)), ((7 : ℤ), (7 : ℤ))] = 0 :=
  (C4_area_shoelace [((0 : ℤ), (0 : ℤ)), ((7 : ℤ), (7 : ℤ))]).2.2 (by decide)

/-- C5: the fixed conversion table holds the six documented values; a unit is accepted
exactly when its lowercase form is one of the six names; accepted units with positive
inputs give pixel length divided by the converted real length; unknown units fail with
the Unknown unit error; and manualScale(100, 10, "meters") = 10. -/
theorem C5_manual_scale (p r : ℚ) (u : String) :
    (unit_to_meters "meters" = some 1 ∧ unit_to_meters "feet" = some 0.3048
      ∧ unit_to_meters "yards" = some 0.9144 ∧ unit_to_meters "inches" = some 0.0254
      ∧ unit_to_meters "cm" = some 0.01 ∧ unit_to_meters "mm" = some 0.001)
    ∧ ((unit_to_meters (py_lower u)).isSome ↔
        py_lower u ∈ ["meters", "feet", "yards", "inches", "cm", "mm"])
    ∧ (0 < p → 0 < r → ∀ f, unit_to_meters (py_lower u) = some f →
        calculate_scale_from_reference p r u = Except.ok (p / (r * f)))
    ∧ (unit_to_meters (py_lower u) = none →
        calculate_scale_from_reference p r u = Except.error ("Unknown unit: " ++ u))
    ∧ calculate_scale_from_reference 100 10 "meters" = Except.ok 10 := by
  refine ⟨⟨rfl, rfl, rfl, rfl, rfl, rfl⟩, ?_, ?_, ?_, ?_⟩
  · generalize py_lower u = s
    unfold unit_to_meters
    split_ifs with h1 h2 h3 h4 h5 h6 <;> simp_all
  · intro hp hr f hf
    have hfpos := unit_to_meters_pos (py_lower u) f hf
    have hne : r * f ≠ 0 := ne_of_gt (mul_pos hr hfpos)
    rw [scale_from_reference_eval p r u f hf, if_neg hne]
  · exact scale_from_reference_unknown p r u
  · rw [scale_from_reference_eval 100 10 "meters" 1 rfl, if_neg (by norm_num)]
    norm_num

/-- C5, witness: case-insensitive success on "METERS" and failure on "parsecs". -/
theorem C5_manual_scale_witness :
    calculate_scale_from_reference 100 10 "METERS" = Except.ok 10
    ∧ calculate_scale_from_reference 100 5 "parsecs"
        = Except.error "Unknown unit: parsecs" := by
  constructor
  · have h := (C5_manual_scale 100 10 "METERS").2.2.1 (by norm_num) (by norm_num) 1 rfl
    rw [h]
    norm_num
  · have h := (C5_manual_scale 100 5 "parsecs").2.2.2.1 rfl
    rw [h]
    rfl

/-- C6: on a non-empty contour, auto_close_contour appends a copy of the first point,
the cyclic line length of the closed contour equals that of the original, and closing
repeatedly leaves the length unchanged. -/
theorem C6_auto_close (l : List Point) (h : l ≠ []) :
    auto_close_contour l = l ++ [l.headD origin]
    ∧ calculate_line_length (auto_close_contour l) = calculate_line_length l
    ∧ calculate_line_length (auto_close_contour (auto_close_contour l))
        = calculate_line_length l := by
  refine ⟨?_, calculate_line_length_auto_close l, ?_⟩
  · unfold auto_close_contour
    rw [if_neg (by simp [h])]
  · rw [calculate_line_length_auto_close, calculate_line_length_auto_close]

/-- C6, witness: closing the open segment (0,0)-(3,4) appends the first point and
preserves the cyclic length. -/
theorem C6_auto_close_witness :
    auto_close_contour [((0 : ℤ), (0 : ℤ)), ((3 : ℤ), (4 : ℤ))]
      = [((0 : ℤ), (0 : ℤ)), ((3 : ℤ), (4 : ℤ)), ((0 : ℤ), (0 : ℤ))]
    ∧ calculate_line_length (auto_close_contour [((0 : ℤ), (0 : ℤ)), ((3 : ℤ), (4 : ℤ))])
        = calculate_line_length [((0 : ℤ), (0 : ℤ)), ((3 : ℤ), (4 : ℤ))] := by
  have h := C6_auto_close [((0 : ℤ), (0 : ℤ)), ((3 : ℤ), (4 : ℤ))] (by decide)
  exact ⟨by rw [h.1]; rfl, h.2.1⟩

/-- C7: the selected main boundary has maximal contour area among all candidates, and
it is the first candidate in discovery order attaining that maximum: every candidate
strictly before it has strictly smaller area. -/
theorem C7_main_boundary_selection (c : List Point) (cs : List (List Point)) :
    (∀ p ∈ c :: cs, contourArea p ≤ contourArea (python_max_by_area c cs))
    ∧ ∃ pre post, c :: cs = pre ++ python_max_by_area c cs :: post
        ∧ ∀ p ∈ pre, contourArea p < contourArea (python_max_by_area c cs) := by
  obtain ⟨h1, h2, h3⟩ := python_max_spec cs c
  constructor
  · intro p hp
    rcases List.mem_cons.mp hp with rfl | hp'
    · exact h1
    · exact h2 p hp'
  · rcases h3 with heq | ⟨pre, post, hsplit, hlt, hpre⟩
    · exact ⟨[], cs, by simp [heq], by simp⟩
    · refine ⟨c :: pre, post,
        by rw [List.cons_append]; exact congrArg (List.cons c) hsplit, ?_⟩
      intro p hp
      rcases List.mem_cons.mp hp with rfl | hp'
      · exact hlt
      · exact hpre p hp'

/-- C8: convert_to_all_units returns the input rounded to 2 decimals, the input times
10.764 rounded to 2 decimals, and the input times 0.000247105 rounded to 4 decimals
(each rounding is within half of the last kept digit and yields a value with that many
decimals), and convert_to_all_units 1 = (1, 10.76, 0.0002). -/
theorem C8_area_units (x : ℚ) :
    ((convert_to_all_units x).sq_meters = python_round x 2
      ∧ (convert_to_all_units x).sq_feet = python_round (x * 10.764) 2
      ∧ (convert_to_all_units x).acres = python_round (x * 0.000247105) 4)
    ∧ (∀ y : ℚ, ∀ n : ℕ, |python_round y n - y| ≤ 1 / (2 * 10 ^ n)
        ∧ (python_round y n * 10 ^ n).den = 1)
    ∧ convert_to_all_units 1 = { sq_meters := 1, sq_feet := 10.76, acres := 0.0002 } := by
  refine ⟨⟨rfl, rfl, rfl⟩,
    fun y n => ⟨python_round_near y n, python_round_scaled_int y n⟩, ?_⟩
  unfold convert_to_all_units python_round
  norm_num [round_eq]

/-- C9, counterexample: the debug flag is stored as a field on the shared instance —
the constructor writes debug_mode := false, and a caller can rebind it on the instance
(example_usage.py line 39), producing a distinct instance state; it is not a per-call
parameter. -/
theorem C9_counterexample :
    ImageMeasurementProcessor.init.debug_mode = false
    ∧ ImageMeasurementProcessor.init.set_debug true ≠ ImageMeasurementProcessor.init := by
  decide

/-- C9, amended: processing leaves the instance state unchanged and its result does
not depend on the instance state, but the debug flag is stored as an instance field
(initialised to false) rather than being passed per call. -/
theorem C9_state_frame (s : ImageMeasurementProcessor) (contours : List (List Point)) :
    (s.process_image_array_m contours).2 = s
    ∧ (s.process_image_array_m contours).1 = process_image_array contours
    ∧ (s.process_image_array_m contours).1
        = (ImageMeasurementProcessor.init.process_image_array_m contours).1
    ∧ ImageMeasurementProcessor.init.debug_mode = false :=
  ⟨rfl, rfl, rfl, rfl⟩

/-- C10: outside the nine case-sensitively matched unit names, manual_scale_input
raises no error and silently treats the real length as already being in meters, and
whenever the converted real length is non-positive it returns None instead of raising
an InvalidReference error. -/
theorem C10_lenient_manual_scale (pixel real : ℚ) (u : String) :
    (u ∉ (["cm", "mm", "m", "meter", "meters", "ft", "feet", "in", "inch"] : List String) →
      manual_real_length_m real u = real
      ∧ manual_scale_input pixel real u
          = if real > 0 then some (pixel / real) else none)
    ∧ (manual_real_length_m real u ≤ 0 → manual_scale_input pixel real u = none) := by
  constructor
  · intro hu
    simp only [List.mem_cons, List.not_mem_nil, or_false, not_or] at hu
    obtain ⟨h1, h2, h3, h4, h5, h6, h7, h8, h9⟩ := hu
    have hm : manual_real_length_m real u = real := by
      unfold manual_real_length_m
      rw [if_neg h1, if_neg h2, if_neg (by tauto), if_neg (by tauto), if_neg (by tauto)]
    refine ⟨hm, ?_⟩
    unfold manual_scale_input
    rw [hm]
  · intro h
    unfold manual_scale_input
    rw [if_neg (not_lt.mpr h)]

/-- C10, witness: an unknown unit string is treated as meters with no error, and a
zero reference length yields None. -/
theorem C10_lenient_manual_scale_witness :
    manual_scale_input 100 5 "parsecs" = some 20
    ∧ manual_scale_input 100 0 "meters" = none := by
  constructor
  · have h := ((C10_lenient_manual_scale 100 5 "parsecs").1 (by decide)).2
    have hv : (100 : ℚ) / 5 = 20 := by norm_num
    rw [h, if_pos (by norm_num), hv]
  · exact (C10_lenient_manual_scale 100 0 "meters").2 (by decide)

end MapTest
